import Mathlib

/-!
Shallow embedding of the OpenMRS-OpenIMIS integration middleware
(`src/main.py`): the in-memory record store (patients, encounters,
claims), the encounter-to-claim synthesizer `map_encounter_to_claim`,
the claim submission and preview endpoints, the monthly reporting
queries, and the reset operation.  Python dicts are embedded as
insertion-ordered association lists, Python floats as exact rationals
(every monetary computation in the program is exact at that precision),
and fallible endpoints return `Except HTTPError`.
-/

/-- Python string slicing `s[:n]`, by characters (Python slices strings by
code point, as does `List.take` on `String.data`). -/
def strTake (s : String) (n : Nat) : String := ⟨s.data.take n⟩

/-- Helper for `strStartsWith`: does the second list start with the first? -/
def listStartsWith : List Char → List Char → Bool
  | [], _ => true
  | _ :: _, [] => false
  | p :: ps, c :: cs => p == c && listStartsWith ps cs

/-- Python `s.startswith(t)` by characters. -/
def strStartsWith (s t : String) : Bool := listStartsWith t.data s.data

/-- Python `"{n:03d}"`-style zero padding of a numeral string to width `w`. -/
def zfill (w : Nat) (s : String) : String :=
  ⟨List.replicate (w - s.data.length) '0' ++ s.data⟩

/-- Models `abs(hash(s))` for Python strings: a fixed deterministic
nonnegative function of the string.  Python's per-process string hash is
randomized across runs but deterministic within a run; `src/main.py` depends
only on that determinism (the derived codes are synthetic), never on the
concrete hash values, so any fixed function is a faithful stand-in.  We use a
31-ary polynomial over the code points. -/
def pyHash (s : String) : Nat := s.data.foldl (fun h c => h * 31 + c.toNat) 7

/-- Python `round(x, 2)`.  Python rounds half to even; every value this
program rounds (`100 * (1 + n / 20) = 100 + 5 * n`) is an exact integer, where
all rounding conventions agree, so Mathlib's `round` is faithful here. -/
def round2 (x : ℚ) : ℚ := ((round (x * 100) : ℤ) : ℚ) / 100

/-- Pydantic model `Patient` (src/main.py lines 31-37) as stored: the server
fields `patient_id` and `created_at` are declared `Optional` on input and are
always assigned by `create_patient` before the record enters the store, so the
stored record carries them as plain strings. -/
structure Patient where
  full_name : String
  age : Int
  gender : String
  chief_complaint : String
  patient_id : String
  created_at : String
  deriving DecidableEq

/-- Pydantic model `Encounter` (src/main.py lines 39-46) as stored:
`encounter_id`, `created_at` and `visit_date` are `Optional` on input and are
always assigned by `create_encounter` before the record enters the store;
`attending_clinician` stays optional. -/
structure Encounter where
  patient_id : String
  diagnosis : String
  treatment : String
  visit_date : String
  attending_clinician : Option String
  encounter_id : String
  created_at : String
  deriving DecidableEq

/-- Input shape of `POST /patient`: the caller-supplied fields of `Patient`. -/
structure PatientInput where
  full_name : String
  age : Int
  gender : String
  chief_complaint : String
  deriving DecidableEq

/-- Input shape of `POST /encounter`: the caller-supplied fields of
`Encounter` (src/main.py lines 39-46); `visit_date` and
`attending_clinician` may be omitted. -/
structure EncounterInput where
  patient_id : String
  diagnosis : String
  treatment : String
  visit_date : Option String
  attending_clinician : Option String
  deriving DecidableEq

/-- Pydantic model `ClaimCoding` (src/main.py lines 48-50). -/
structure ClaimCoding where
  system : Option String
  code : String
  deriving DecidableEq

/-- Pydantic model `ClaimType` (src/main.py lines 52-53). -/
structure ClaimType where
  coding : List ClaimCoding
  deriving DecidableEq

/-- Pydantic model `Reference` (src/main.py lines 55-56). -/
structure Reference where
  reference : String
  deriving DecidableEq

/-- Pydantic model `Money` (src/main.py lines 58-60); Python `float` values
are embedded as exact rationals. -/
structure Money where
  value : ℚ
  currency : String
  deriving DecidableEq

/-- Pydantic model `ClaimItem` (src/main.py lines 62-67);
`productOrService : Dict[str, List[ClaimCoding]]` is embedded as an
association list. -/
structure ClaimItem where
  sequence : Int
  productOrService : List (String × List ClaimCoding)
  servicedDate : String
  unitPrice : Money
  net : Money
  deriving DecidableEq

/-- Pydantic model `FHIRClaim` (src/main.py lines 69-89).  The nested
`priority : Dict[str, List[Dict[str, str]]]` dict always has the single
shape `{"coding": [{"code": c}, ...]}` in this program and is embedded as
the list of its codes. -/
structure FHIRClaim where
  resourceType : String
  id : Option String
  status : String
  type : ClaimType
  patient : Reference
  encounter : Reference
  created : String
  provider : Option Reference
  use : String
  priority : List String
  item : List ClaimItem
  total : Money
  deriving DecidableEq

/-- An error raised as `fastapi.HTTPException` (or a pydantic validation
failure, which FastAPI surfaces as status 422). -/
structure HTTPError where
  status_code : Nat
  detail : String
  deriving DecidableEq

/-- The three module-level dicts of src/main.py (lines 24-29): `patients`
(patient_id to Patient), `encounters` (patient_id to list of encounters),
`claims` (claim_id to FHIRClaim).  Python dicts are embedded as
insertion-ordered association lists. -/
structure Store where
  patients : List (String × Patient)
  encounters : List (String × List Encounter)
  claims : List (String × FHIRClaim)
  deriving DecidableEq

/-- The state of the module-level dicts at startup (and after a reset). -/
def emptyStore : Store := ⟨[], [], []⟩

/-- Python `k in d` for a dict embedded as an association list. -/
def hasKey (l : List (String × α)) (k : String) : Bool :=
  l.any (fun p => p.1 == k)

/-- Python `d[k] = v` for a dict embedded as an association list: overwrite
in place when the key exists, append a new binding otherwise. -/
def dictSet (l : List (String × α)) (k : String) (v : α) : List (String × α) :=
  if l.any (fun p => p.1 == k) then
    l.map (fun p => if p.1 == k then (k, v) else p)
  else
    l ++ [(k, v)]

/-- The derived service code of `map_encounter_to_claim` (src/main.py line
97): `f"TREAT{abs(hash(diagnosis)) % 1000:03d}"`. -/
def treatmentCode (diagnosis : String) : String :=
  "TREAT" ++ zfill 3 (toString (pyHash diagnosis % 1000))

/-- The derived total of `map_encounter_to_claim` (src/main.py lines
100-102): `round(100.0 * (1 + len(diagnosis) / 20), 2)`. -/
def totalAmount (diagnosis : String) : ℚ :=
  round2 (100 * (1 + (diagnosis.length : ℚ) / 20))

/-- The provider reference of `map_encounter_to_claim` (src/main.py lines
140-143): attached only when `enc.attending_clinician` is truthy (Python
treats both `None` and the empty string as falsy). -/
def providerRef (clinician : Option String) : Option Reference :=
  match clinician with
  | none => none
  | some c =>
    if c = "" then none
    else some ⟨"Practitioner/" ++ zfill 4 (toString (pyHash c % 10000))⟩

/-- The FHIR Claim dict built by `map_encounter_to_claim` (src/main.py lines
104-145) for the encounter `enc` owned by `patient_id`; `now` is
`datetime.now().isoformat()`. -/
def buildClaim (patient_id : String) (enc : Encounter) (now : String) : FHIRClaim :=
  { resourceType := "Claim"
    id := none
    status := "active"
    type := ⟨[⟨some "http://terminology.hl7.org/CodeSystem/claim-type", "institutional"⟩]⟩
    patient := ⟨"Patient/" ++ patient_id⟩
    encounter := ⟨"Encounter/" ++ enc.encounter_id⟩
    created := now
    provider := providerRef enc.attending_clinician
    use := "claim"
    priority := ["normal"]
    item := [{ sequence := 1
               productOrService :=
                 [("coding", [⟨some "http://example.org/local-codes", treatmentCode enc.diagnosis⟩])]
               servicedDate := enc.visit_date
               unitPrice := ⟨totalAmount enc.diagnosis, "USD"⟩
               net := ⟨totalAmount enc.diagnosis, "USD"⟩ }]
    total := ⟨totalAmount enc.diagnosis, "USD"⟩ }

/-- The search loop of `map_encounter_to_claim` (src/main.py lines 93-95):
scan the encounter buckets in dict order, and within each bucket in list
order, for the first encounter whose `encounter_id` matches; return it with
its owning patient id. -/
def findEncounter (buckets : List (String × List Encounter)) (encounter_id : String) :
    Option (String × Encounter) :=
  match buckets with
  | [] => none
  | (pid, encs) :: rest =>
    match encs.find? (fun e => e.encounter_id == encounter_id) with
    | some e => some (pid, e)
    | none => findEncounter rest encounter_id

/-- `map_encounter_to_claim` (src/main.py lines 91-147): build the claim for
the matching encounter, or raise `HTTPException(404, "Encounter not found")`. -/
def map_encounter_to_claim (s : Store) (encounter_id : String) (now : String) :
    Except HTTPError FHIRClaim :=
  match findEncounter s.encounters encounter_id with
  | some (pid, enc) => .ok (buildClaim pid enc now)
  | none => .error ⟨404, "Encounter not found"⟩

/-- `filter_by_month` (src/main.py lines 149-154): `date_str.startswith(target_month)`.
The `except` arm is unreachable because `str.startswith` does not raise on
string arguments. -/
def filter_by_month (date_str : String) (target_month : String) : Bool :=
  strStartsWith date_str target_month

/-- `create_patient` (src/main.py lines 156-170): assign a fresh id (`newId`
stands for `str(uuid.uuid4())`) and the current timestamp, store the patient,
return the stored record. -/
def create_patient (s : Store) (input : PatientInput) (newId : String) (now : String) :
    Store × Patient :=
  let p : Patient :=
    { full_name := input.full_name, age := input.age, gender := input.gender
      chief_complaint := input.chief_complaint, patient_id := newId, created_at := now }
  ({ s with patients := dictSet s.patients newId p }, p)

/-- The bucket update of `create_encounter` (src/main.py lines 190-195):
initialize the patient's bucket when absent, then append the encounter. -/
def appendEncounter (buckets : List (String × List Encounter)) (pid : String)
    (e : Encounter) : List (String × List Encounter) :=
  if buckets.any (fun b => b.1 == pid) then
    buckets.map (fun b => if b.1 == pid then (b.1, b.2 ++ [e]) else b)
  else
    buckets ++ [(pid, [e])]

/-- `create_encounter` (src/main.py lines 178-202): raise
`HTTPException(404, "Patient not found")` when the patient id is not a key of
`patients`; otherwise assign a fresh id and timestamps (`if not
encounter.visit_date` treats both a missing and an empty visit date as
absent, defaulting to today's date `nowDate`) and append the encounter to the
patient's bucket. -/
def create_encounter (s : Store) (input : EncounterInput) (newId : String)
    (nowTs : String) (nowDate : String) : Except HTTPError (Store × Encounter) :=
  if hasKey s.patients input.patient_id then
    let vd :=
      match input.visit_date with
      | none => nowDate
      | some d => if d = "" then nowDate else d
    let e : Encounter :=
      { patient_id := input.patient_id, diagnosis := input.diagnosis
        treatment := input.treatment, visit_date := vd
        attending_clinician := input.attending_clinician
        encounter_id := newId, created_at := nowTs }
    .ok ({ s with encounters := appendEncounter s.encounters input.patient_id e }, e)
  else
    .error ⟨404, "Patient not found"⟩

/-- The diagnosis truncation of `list_encounters` (src/main.py line 227):
`diagnosis[:50] + "..." if len(diagnosis) > 50 else diagnosis`. -/
def truncDiagnosis (d : String) : String :=
  if d.length > 50 then strTake d 50 ++ "..." else d

/-- One row of the `GET /encounters` summary (src/main.py lines 223-228). -/
structure EncounterSummary where
  encounter_id : String
  patient_name : String
  visit_date : String
  diagnosis : String
  deriving DecidableEq

/-- The loop of `list_encounters` (src/main.py lines 220-228): for each
bucket, the unguarded lookup `patients[patient_id]` raises `KeyError` when
the key is absent — embedded as `none`. -/
def summarizeBuckets (ps : List (String × Patient)) :
    List (String × List Encounter) → Option (List EncounterSummary)
  | [] => some []
  | (pid, encs) :: rest =>
    match List.lookup pid ps with
    | none => none
    | some p =>
      match summarizeBuckets ps rest with
      | none => none
      | some tail =>
        some ((encs.map fun e =>
          { encounter_id := e.encounter_id, patient_name := p.full_name
            visit_date := e.visit_date
            diagnosis := truncDiagnosis e.diagnosis : EncounterSummary }) ++ tail)

/-- `list_encounters` (src/main.py lines 216-229): the all-encounters summary
listing; `none` models the `KeyError` crash of the unguarded patient lookup. -/
def list_encounters (s : Store) : Option (List EncounterSummary) :=
  summarizeBuckets s.patients s.encounters

/-- Pydantic validation of a parsed `FHIRClaim` document: beyond the typing
of the fields (captured by the `FHIRClaim` structure itself), the only
value-level check is the `resourceType` validator (src/main.py lines 85-89);
its failure is surfaced by FastAPI as a 422 validation error. -/
def validateFHIRClaim (c : FHIRClaim) : Except HTTPError FHIRClaim :=
  if c.resourceType = "Claim" then .ok c
  else .error ⟨422, "resourceType must be \"Claim\""⟩

/-- The acknowledgement body returned by `submit_claim`
(src/main.py lines 247-254). -/
structure SubmitResponse where
  claim_id : String
  status : String
  received : String
  deriving DecidableEq

/-- `submit_claim` (src/main.py lines 240-254), composed with the pydantic
parse of its `claim: FHIRClaim` argument: a document passing validation is
given a fresh id (`newId` stands for `str(uuid.uuid4())`), stored under that
id, and acknowledged with the id, the literal status string `"accepted"` and
the current timestamp. -/
def submit_claim (s : Store) (doc : FHIRClaim) (newId : String) (now : String) :
    Except HTTPError (Store × SubmitResponse) :=
  match validateFHIRClaim doc with
  | .error e => .error e
  | .ok c =>
    .ok ({ s with claims := dictSet s.claims newId { c with id := some newId } },
         { claim_id := newId, status := "accepted", received := now })

/-- The rendering `str(e)` of a `fastapi.HTTPException`, which is
`f"{status_code}: {detail}"`. -/
def exceptionStr (e : HTTPError) : String :=
  toString e.status_code ++ ": " ++ e.detail

/-- `generate_claim_preview` (src/main.py lines 261-268): the `except
Exception` arm catches every exception raised by `map_encounter_to_claim` —
including its `HTTPException(404, "Encounter not found")` — and re-raises it
as `HTTPException(400, str(e))`. -/
def generate_claim_preview (s : Store) (encounter_id : String) (now : String) :
    Except HTTPError FHIRClaim :=
  match map_encounter_to_claim s encounter_id now with
  | .ok c => .ok c
  | .error e => .error ⟨400, exceptionStr e⟩

/-- The list of stored claims in dict-value order (`claims.values()`). -/
def claimsList (s : Store) : List FHIRClaim := s.claims.map (fun p => p.2)

/-- `patient_ref.split("/")[-1]` (src/main.py line 315). -/
def lastPathComponent (ref : String) : String :=
  (ref.splitOn "/").getLastD ""

/-- `get_claims_by_month` (src/main.py lines 300-319): keep the claims whose
`created[:7]` starts with the month key and, when a status filter is given,
whose status equals it; each kept claim is annotated with the owning
patient's name when the patient id parsed from its reference is a key of
`patients`. -/
def get_claims_by_month (s : Store) (month : String) (status : Option String) :
    List (FHIRClaim × Option String) :=
  ((claimsList s).filter (fun c =>
      filter_by_month (strTake c.created 7) month &&
      (match status with
       | none => true
       | some st => c.status == st))).map
    (fun c => (c, (List.lookup (lastPathComponent c.patient.reference) s.patients).map
      (fun p => p.full_name)))

/-- The date multiset collected by `get_available_months` (src/main.py lines
324-337): `created_at[:7]` of every patient, `visit_date[:7]` of every
encounter in every bucket, `created[:7]` of every claim. -/
def allMonthKeys (s : Store) : List String :=
  (s.patients.map fun p => strTake p.2.created_at 7) ++
  ((s.encounters.map (fun b => b.2)).flatten.map fun e => strTake e.visit_date 7) ++
  (s.claims.map fun c => strTake c.2.created 7)

/-- `get_available_months` (src/main.py lines 321-339): the distinct month
keys, sorted descending (`sorted(list(all_dates), reverse=True)` on the
set of collected dates). -/
def get_available_months (s : Store) : List String :=
  List.insertionSort (fun a b => b ≤ a) (allMonthKeys s).dedup

/-- The month-key validation `Query(..., regex="^\d{4}-\d{2}$")` applied by
FastAPI to the `month` parameter of every report endpoint (src/main.py lines
271, 282, 302). -/
def isMonthKey (m : String) : Bool :=
  match m.data with
  | [y1, y2, y3, y4, dash, m1, m2] =>
    y1.isDigit && y2.isDigit && y3.isDigit && y4.isDigit &&
    dash == '-' && m1.isDigit && m2.isDigit
  | _ => false

/-- Modelled from the spec: the claim-processing operation (`PUT
claims/{id}/process`, called by the UI layer in src/app.py lines 406-424) has
no implementation in src/main.py.  Per spec section 4.3: given a claim id and
a target status in `{accepted, rejected}`, it fails with `NotFound` if the
claim does not exist, and otherwise overwrites the claim's status
unconditionally — including out of a terminal state — returning the updated
claim. -/
def process_claim (s : Store) (claim_id : String) (target : String) :
    Except HTTPError (Store × FHIRClaim) :=
  match List.lookup claim_id s.claims with
  | none => .error ⟨404, "Claim not found"⟩
  | some c =>
    .ok ({ s with claims := dictSet s.claims claim_id { c with status := target } },
         { c with status := target })

/-- `reset_system` (src/main.py lines 351-357): clear all three dicts. -/
def reset_system (_ : Store) : Store × String :=
  ({ patients := [], encounters := [], claims := [] }, "All data has been reset")

/-- One externally triggered mutation of the store.  Fresh identifiers
(`uuid.uuid4()`) and current timestamps are external inputs of each
operation, so they appear as data of the operation. -/
inductive Op where
  | createPatient (input : PatientInput) (newId : String) (now : String)
  | createEncounter (input : EncounterInput) (newId : String) (nowTs : String) (nowDate : String)
  | submitClaim (doc : FHIRClaim) (newId : String) (now : String)
  | processClaim (claim_id : String) (target : String)
  | reset
  deriving DecidableEq

/-- The store left behind by one operation: a failing operation (an
`HTTPException` response) leaves the store as it was. -/
def applyOp (s : Store) : Op → Store
  | .createPatient input i t => (create_patient s input i t).1
  | .createEncounter input i t d =>
    match create_encounter s input i t d with
    | .ok (s', _) => s'
    | .error _ => s
  | .submitClaim doc i t =>
    match submit_claim s doc i t with
    | .ok (s', _) => s'
    | .error _ => s
  | .processClaim cid target =>
    match process_claim s cid target with
    | .ok (s', _) => s'
    | .error _ => s
  | .reset => (reset_system s).1

/-- The store reached by a sequence of operations from process startup. -/
def runOps (ops : List Op) : Store := ops.foldl applyOp emptyStore

/-- The cross-entity invariant of the record store: every key of the
encounters dict is also a key of the patients dict. -/
def storeInv (s : Store) : Prop :=
  ∀ pid, hasKey s.encounters pid = true → hasKey s.patients pid = true

/-- A well-typed claim document whose item list is empty and whose total
(100) differs from the sum of its item nets (0): a fixture for claim
submission. -/
def emptyItemClaim : FHIRClaim :=
  { resourceType := "Claim", id := none, status := "active"
    type := ⟨[⟨some "http://terminology.hl7.org/CodeSystem/claim-type", "institutional"⟩]⟩
    patient := ⟨"Patient/p1"⟩, encounter := ⟨"Encounter/e1"⟩
    created := "2024-05-02T10:00:00", provider := none, use := "claim"
    priority := ["normal"], item := [], total := ⟨100, "USD"⟩ }

/-- A well-typed claim document whose caller-supplied status is `rejected`:
a fixture for claim submission. -/
def rejectedStatusClaim : FHIRClaim :=
  { resourceType := "Claim", id := none, status := "rejected"
    type := ⟨[⟨some "http://terminology.hl7.org/CodeSystem/claim-type", "institutional"⟩]⟩
    patient := ⟨"Patient/p2"⟩, encounter := ⟨"Encounter/e2"⟩
    created := "2024-06-01T08:00:00", provider := none, use := "claim"
    priority := ["normal"]
    item := [{ sequence := 1, productOrService := [("coding", [⟨none, "TREAT001"⟩])]
               servicedDate := "2024-06-01", unitPrice := ⟨160, "USD"⟩, net := ⟨160, "USD"⟩ }]
    total := ⟨160, "USD"⟩ }

/-- A well-typed claim document with resourceType `Claim`: a fixture for the
submission success path. -/
def activeSubmittedClaim : FHIRClaim :=
  { resourceType := "Claim", id := none, status := "active"
    type := ⟨[⟨some "http://terminology.hl7.org/CodeSystem/claim-type", "institutional"⟩]⟩
    patient := ⟨"Patient/p3"⟩, encounter := ⟨"Encounter/e3"⟩
    created := "2024-06-02T08:00:00", provider := none, use := "claim"
    priority := ["normal"]
    item := [{ sequence := 1, productOrService := [("coding", [⟨none, "TREAT002"⟩])]
               servicedDate := "2024-06-02", unitPrice := ⟨105, "USD"⟩, net := ⟨105, "USD"⟩ }]
    total := ⟨105, "USD"⟩ }

/-- A stored claim created in May 2024 with status `accepted`: a fixture for
the monthly claims report. -/
def mayClaimFixture : FHIRClaim :=
  { resourceType := "Claim", id := some "c-5", status := "accepted"
    type := ⟨[⟨some "http://terminology.hl7.org/CodeSystem/claim-type", "institutional"⟩]⟩
    patient := ⟨"Patient/p5"⟩, encounter := ⟨"Encounter/e5"⟩
    created := "2024-05-10T12:00:00", provider := none, use := "claim"
    priority := ["normal"]
    item := [{ sequence := 1, productOrService := [("coding", [⟨none, "TREAT003"⟩])]
               servicedDate := "2024-05-10", unitPrice := ⟨130, "USD"⟩, net := ⟨130, "USD"⟩ }]
    total := ⟨130, "USD"⟩ }

/-- A store holding only `mayClaimFixture`. -/
def mayStoreFixture : Store := ⟨[], [], [("c-5", mayClaimFixture)]⟩

/-- A stored claim already in the terminal status `rejected`: a fixture for
claim processing. -/
def terminalClaimFixture : FHIRClaim :=
  { rejectedStatusClaim with id := some "c-9", created := "2024-07-01T08:00:00" }

/-- A store holding only `terminalClaimFixture` under key `c-9`. -/
def terminalStoreFixture : Store := ⟨[], [], [("c-9", terminalClaimFixture)]⟩

/-- An encounter-creation input whose patient id is not in the store: a
fixture for encounter creation. -/
def orphanEncounterInput : EncounterInput :=
  { patient_id := "p-missing", diagnosis := "Cough", treatment := "Rest"
    visit_date := some "2024-05-03", attending_clinician := none }

/-- The derived total is exact: `100 * (1 + n / 20) = 100 + 5 * n` is an
integer for every diagnosis length `n`, so rounding to 2 decimal places is
the identity on it. -/
theorem totalAmount_closed (d : String) : totalAmount d = 100 + 5 * (d.length : ℚ) := by
  unfold totalAmount round2
  have h1 : (100 : ℚ) * (1 + (d.length : ℚ) / 20) * 100 =
      ((10000 + 500 * d.length : ℤ) : ℚ) := by
    push_cast; ring
  rw [h1, round_intCast]
  have h2 : (100 : ℚ) ≠ 0 := by norm_num
  rw [div_eq_iff h2]
  push_cast; ring

/-- A pattern of length at least that of the scanned list starts it only by
being equal to it. -/
theorem listStartsWith_eq_iff (p u : List Char) (h : u.length ≤ p.length) :
    listStartsWith p u = true ↔ u = p := by
  induction p generalizing u with
  | nil =>
    cases u with
    | nil => simp [listStartsWith]
    | cons b us => simp at h
  | cons a ps ih =>
    cases u with
    | nil => simp [listStartsWith]
    | cons b us =>
      simp only [listStartsWith, Bool.and_eq_true, beq_iff_eq]
      rw [ih us (by simpa using h)]
      constructor
      · rintro ⟨h1, h2⟩
        rw [h1, h2]
      · intro h1
        injection h1 with h1 h2
        exact ⟨h1.symm, h2⟩

/-- A string matching the month-key regex has exactly 7 characters. -/
theorem length_of_isMonthKey (m : String) (h : isMonthKey m = true) :
    m.data.length = 7 := by
  unfold isMonthKey at h
  split at h <;> simp_all

/-- With a 7-character month key, the code's test `date[:7].startswith(month)`
holds exactly when the first 7 characters of the date equal the month key. -/
theorem filterMonth_take7_iff (s M : String) (h : M.data.length = 7) :
    filter_by_month (strTake s 7) M = true ↔ strTake s 7 = M := by
  have hle : (s.data.take 7).length ≤ M.data.length := by
    rw [List.length_take, h]
    exact min_le_left _ _
  show listStartsWith M.data (s.data.take 7) = true ↔ _
  rw [listStartsWith_eq_iff _ _ hle, String.ext_iff]
  exact Iff.rfl

/-- A key present in an association list is found by `List.lookup`. -/
theorem lookup_isSome_of_hasKey (l : List (String × α)) (k : String)
    (h : hasKey l k = true) : (List.lookup k l).isSome = true := by
  induction l with
  | nil => simp [hasKey] at h
  | cons a t ih =>
    obtain ⟨a1, a2⟩ := a
    simp only [hasKey, List.any_cons, Bool.or_eq_true, beq_iff_eq] at h
    by_cases hk : k = a1
    · simp [List.lookup, hk]
    · have hne : (k == a1) = false := by simp [hk]
      have ht : hasKey t k = true := by
        rcases h with h | h
        · exact absurd h.symm hk
        · simpa [hasKey] using h
      simpa [List.lookup, hne] using ih ht

/-- A pair of an association list makes its first component a present key. -/
theorem hasKey_of_mem (l : List (String × α)) (p : String × α) (h : p ∈ l) :
    hasKey l p.1 = true := by
  simp only [hasKey, List.any_eq_true]
  exact ⟨p, h, by simp⟩

/-- The overwrite branch of `dictSet` leaves the key set unchanged. -/
theorem hasKey_mapOverwrite (l : List (String × α)) (k j : String) (v : α) :
    hasKey (l.map (fun p => if p.1 == k then (k, v) else p)) j = hasKey l j := by
  induction l with
  | nil => rfl
  | cons a t ih =>
    have hhead : ((if a.1 == k then (k, v) else a).1 == j) = (a.1 == j) := by
      by_cases ha : a.1 = k <;> simp [ha]
    simp only [List.map_cons, hasKey, List.any_cons] at *
    rw [hhead, ih]

/-- `dictSet` keeps every previously present key present. -/
theorem hasKey_dictSet_of_hasKey (l : List (String × α)) (k j : String) (v : α)
    (h : hasKey l j = true) : hasKey (dictSet l k v) j = true := by
  unfold dictSet
  split
  · rw [hasKey_mapOverwrite]
    exact h
  · simp only [hasKey, List.any_append] at *
    rw [h]
    rfl

/-- The overwrite branch of `appendEncounter` leaves the key set unchanged. -/
theorem hasKey_mapBucket (bs : List (String × List Encounter)) (pid j : String)
    (e : Encounter) :
    hasKey (bs.map (fun b => if b.1 == pid then (b.1, b.2 ++ [e]) else b)) j =
      hasKey bs j := by
  induction bs with
  | nil => rfl
  | cons a t ih =>
    have hhead : ((if a.1 == pid then (a.1, a.2 ++ [e]) else a).1 == j) = (a.1 == j) := by
      by_cases ha : a.1 = pid <;> simp [ha]
    simp only [List.map_cons, hasKey, List.any_cons] at *
    rw [hhead, ih]

/-- Any key of the encounter buckets after an append was already a key or is
the bucket just written. -/
theorem hasKey_appendEncounter (bs : List (String × List Encounter)) (pid j : String)
    (e : Encounter) (h : hasKey (appendEncounter bs pid e) j = true) :
    hasKey bs j = true ∨ j = pid := by
  unfold appendEncounter at h
  split at h
  · rw [hasKey_mapBucket] at h
    exact Or.inl h
  · simp only [hasKey, List.any_append, List.any_cons, List.any_nil,
      Bool.or_eq_true, beq_iff_eq] at h
    rcases h with h | h
    · exact Or.inl h
    · rcases h with h | h
      · exact Or.inr h.symm
      · simp at h

/-- A bucket list all of whose keys resolve in the patient dict summarizes
without a `KeyError`. -/
theorem summarizeBuckets_isSome (ps : List (String × Patient))
    (bs : List (String × List Encounter))
    (h : ∀ b ∈ bs, (List.lookup b.1 ps).isSome = true) :
    (summarizeBuckets ps bs).isSome = true := by
  induction bs with
  | nil => rfl
  | cons a t ih =>
    obtain ⟨a1, a2⟩ := a
    have h1 := h (a1, a2) (List.mem_cons_self _ _)
    obtain ⟨p, hp⟩ := Option.isSome_iff_exists.1 h1
    have h2 := ih (fun b hb => h b (List.mem_cons_of_mem _ hb))
    obtain ⟨tail, ht⟩ := Option.isSome_iff_exists.1 h2
    simp [summarizeBuckets, hp, ht]

/-- Every single operation preserves the cross-entity invariant. -/
theorem storeInv_applyOp (s : Store) (op : Op) (h : storeInv s) :
    storeInv (applyOp s op) := by
  cases op with
  | createPatient input i t =>
    intro pid hp
    exact hasKey_dictSet_of_hasKey _ _ _ _ (h pid hp)
  | createEncounter input i t d =>
    by_cases hpk : hasKey s.patients input.patient_id = true
    · simp only [applyOp, create_encounter, hpk, if_true]
      intro pid hp
      rcases hasKey_appendEncounter _ _ _ _ hp with h1 | h2
      · exact h pid h1
      · rw [h2]
        exact hpk
    · have hpk' : hasKey s.patients input.patient_id = false := by
        simpa using hpk
      simp only [applyOp, create_encounter, hpk', Bool.false_eq_true, if_false]
      exact h
  | submitClaim doc i t =>
    by_cases hr : doc.resourceType = "Claim" <;>
      simp only [applyOp, submit_claim, validateFHIRClaim, hr, if_true, if_false] <;>
      exact h
  | processClaim cid target =>
    cases hc : List.lookup cid s.claims <;>
      simp only [applyOp, process_claim, hc] <;>
      exact h
  | reset =>
    intro pid hp
    simp [reset_system, applyOp, hasKey] at hp

/-- The cross-entity invariant holds in every reachable store. -/
theorem storeInv_runOps (ops : List Op) : storeInv (runOps ops) := by
  unfold runOps
  have hgen : ∀ s, storeInv s → storeInv (ops.foldl applyOp s) := by
    induction ops with
    | nil => exact fun s h => h
    | cons op rest ih => exact fun s h => ih _ (storeInv_applyOp s op h)
  refine hgen emptyStore ?_
  intro pid hp
  simp [emptyStore, hasKey] at hp

/-- C1 (counterexample): submitting the well-typed claim document
`emptyItemClaim` — whose item list is empty and whose total (100) is not the
sum of its item nets (0) — does not fail with `InvalidClaim`: it succeeds and
the claim is persisted in the store under the fresh id. -/
theorem C1_counterexample :
    submit_claim emptyStore emptyItemClaim "cid-1" "2024-05-02T10:05:00" =
      .ok ({ emptyStore with claims := [("cid-1", { emptyItemClaim with id := some "cid-1" })] },
           { claim_id := "cid-1", status := "accepted", received := "2024-05-02T10:05:00" }) ∧
    emptyItemClaim.item = [] ∧
    (emptyItemClaim.item.map (fun it => it.net.value)).sum ≠ emptyItemClaim.total.value := by
  refine ⟨rfl, rfl, ?_⟩
  norm_num [emptyItemClaim]

/-- C1 (amended): submission rejects a document exactly when its resource
type tag differs from `Claim` (pydantic's `resourceType` validator, surfaced
as a 422 validation error); any other well-typed document — in particular one
with an empty item list or a total inconsistent with its line items — is
assigned a fresh id, persisted, and acknowledged. -/
theorem C1_validation_checks_only_resource_type (s : Store) (doc : FHIRClaim)
    (newId now : String) :
    submit_claim s doc newId now =
      (if doc.resourceType = "Claim" then
        .ok ({ s with claims := dictSet s.claims newId { doc with id := some newId } },
             { claim_id := newId, status := "accepted", received := now })
      else .error ⟨422, "resourceType must be \"Claim\""⟩) := by
  unfold submit_claim validateFHIRClaim
  by_cases h : doc.resourceType = "Claim" <;> simp [h]

/-- C2 (counterexample): submitting the well-typed claim document
`rejectedStatusClaim`, whose caller-supplied status is `rejected`, persists
the claim with status `rejected`, not `active`: submission does not force the
status. -/
theorem C2_counterexample :
    submit_claim emptyStore rejectedStatusClaim "cid-2" "2024-06-01T09:00:00" =
      .ok ({ emptyStore with
              claims := [("cid-2", { rejectedStatusClaim with id := some "cid-2" })] },
           { claim_id := "cid-2", status := "accepted", received := "2024-06-01T09:00:00" }) ∧
    ({ rejectedStatusClaim with id := some "cid-2" } : FHIRClaim).status = "rejected" ∧
    ("rejected" : String) ≠ "active" :=
  ⟨rfl, rfl, by decide⟩

/-- C2 (amended): a document accepted by submission is persisted exactly as
supplied except for the freshly assigned identity — in particular the
caller-supplied status is kept (pydantic defaults the status to `active`
only when the field is absent from the document) — and the operation returns
that identity plus an acknowledgement timestamp. -/
theorem C2_submission_echoes_document (s : Store) (doc : FHIRClaim)
    (newId now : String) (h : doc.resourceType = "Claim") :
    submit_claim s doc newId now =
      .ok ({ s with claims := dictSet s.claims newId { doc with id := some newId } },
           { claim_id := newId, status := "accepted", received := now }) := by
  unfold submit_claim validateFHIRClaim
  simp [h]

/-- C2 (witness): the amended statement at the concrete document
`activeSubmittedClaim` on the empty store. -/
theorem C2_submission_echoes_document_witness :
    activeSubmittedClaim.resourceType = "Claim" ∧
    submit_claim emptyStore activeSubmittedClaim "cid-3" "2024-06-02T09:00:00" =
      .ok ({ emptyStore with
              claims := dictSet emptyStore.claims "cid-3"
                { activeSubmittedClaim with id := some "cid-3" } },
           { claim_id := "cid-3", status := "accepted", received := "2024-06-02T09:00:00" }) :=
  ⟨rfl, C2_submission_echoes_document emptyStore activeSubmittedClaim "cid-3"
    "2024-06-02T09:00:00" rfl⟩

/-- C3 (code bug): previewing a claim for an encounter id absent from the
store does not surface `NotFound` (404): the `except Exception` arm of
`generate_claim_preview` catches the inner `HTTPException(404, "Encounter
not found")` raised by `map_encounter_to_claim` and re-raises it as a 400
Bad Request whose detail is the rendering of the caught exception. -/
theorem C3_preview_missing_encounter_is_400 :
    generate_claim_preview emptyStore "e-missing" "2024-05-01T00:00:00" =
      .error ⟨400, "404: Encounter not found"⟩ ∧
    map_encounter_to_claim emptyStore "e-missing" "2024-05-01T00:00:00" =
      .error ⟨404, "Encounter not found"⟩ ∧
    (400 : Nat) ≠ 404 :=
  ⟨rfl, rfl, by decide⟩

/-- C4: for every encounter, the synthesized claim's total is
`round(100 * (1 + len(diagnosis) / 20), 2)`, which is exactly
`100 + 5 * len(diagnosis)`; the single line item's unit price and net price
both equal that total; and diagnosis `"Hypertension"` (12 characters) yields
total 160. -/
theorem C4_synthesizer_pricing (pid : String) (enc : Encounter) (now : String) :
    (buildClaim pid enc now).total.value =
      round2 (100 * (1 + (enc.diagnosis.length : ℚ) / 20)) ∧
    (buildClaim pid enc now).total.value = 100 + 5 * (enc.diagnosis.length : ℚ) ∧
    (buildClaim pid enc now).item.map (fun it => (it.unitPrice.value, it.net.value)) =
      [((buildClaim pid enc now).total.value, (buildClaim pid enc now).total.value)] ∧
    totalAmount "Hypertension" = 160 := by
  refine ⟨rfl, totalAmount_closed _, rfl, ?_⟩
  have hl : (("Hypertension".length : ℕ) : ℚ) = 12 := by norm_num [String.length]
  rw [totalAmount_closed, hl]
  norm_num

/-- C7: creating an encounter whose patient id is not a key of the patient
store fails with `NotFound` (404, "Patient not found") and leaves the store
completely unchanged. -/
theorem C7_create_encounter_unknown_patient (s : Store) (input : EncounterInput)
    (newId nowTs nowDate : String)
    (h : hasKey s.patients input.patient_id = false) :
    create_encounter s input newId nowTs nowDate = .error ⟨404, "Patient not found"⟩ ∧
    applyOp s (Op.createEncounter input newId nowTs nowDate) = s := by
  constructor
  · unfold create_encounter
    simp [h]
  · unfold applyOp create_encounter
    simp [h]

/-- C7 (witness): the statement at the concrete input `orphanEncounterInput`
on the empty store. -/
theorem C7_create_encounter_unknown_patient_witness :
    hasKey emptyStore.patients orphanEncounterInput.patient_id = false ∧
    (create_encounter emptyStore orphanEncounterInput "e-1" "2024-05-03T08:00:00" "2024-05-03" =
        .error ⟨404, "Patient not found"⟩ ∧
      applyOp emptyStore
        (Op.createEncounter orphanEncounterInput "e-1" "2024-05-03T08:00:00" "2024-05-03") =
        emptyStore) :=
  ⟨rfl, C7_create_encounter_unknown_patient emptyStore orphanEncounterInput
    "e-1" "2024-05-03T08:00:00" "2024-05-03" rfl⟩

/-- C8: for every claim id and target status in `{accepted, rejected}`, the
process operation fails with `NotFound` when no claim with that id is
stored, and otherwise overwrites the stored claim's status with the target
unconditionally — with no constraint on the claim's current status, so also
out of a terminal `accepted`/`rejected` state. -/
theorem C8_process_claim_spec (s : Store) (claim_id target : String)
    (_h : target = "accepted" ∨ target = "rejected") :
    (List.lookup claim_id s.claims = none →
      process_claim s claim_id target = .error ⟨404, "Claim not found"⟩) ∧
    (∀ c, List.lookup claim_id s.claims = some c →
      process_claim s claim_id target =
        .ok ({ s with claims := dictSet s.claims claim_id { c with status := target } },
             { c with status := target })) := by
  constructor
  · intro hn
    unfold process_claim
    rw [hn]
  · intro c hc
    unfold process_claim
    rw [hc]

/-- C8 (witness): the statement at target `accepted` on a store whose only
claim (`terminalClaimFixture`, key `c-9`) is already in the terminal status
`rejected`. -/
theorem C8_process_claim_spec_witness :
    (("accepted" : String) = "accepted" ∨ ("accepted" : String) = "rejected") ∧
    ((List.lookup "c-9" terminalStoreFixture.claims = none →
      process_claim terminalStoreFixture "c-9" "accepted" = .error ⟨404, "Claim not found"⟩) ∧
    (∀ c, List.lookup "c-9" terminalStoreFixture.claims = some c →
      process_claim terminalStoreFixture "c-9" "accepted" =
        .ok ({ terminalStoreFixture with
                claims := dictSet terminalStoreFixture.claims "c-9" { c with status := "accepted" } },
             { c with status := "accepted" }))) :=
  ⟨Or.inl rfl, C8_process_claim_spec terminalStoreFixture "c-9" "accepted" (Or.inl rfl)⟩

/-- C9: the claim synthesizer is deterministic in everything but the created
timestamp: running `map_encounter_to_claim` twice on the same store and
encounter id with different current times yields the same result — same
derived service code, same provider reference, same total — with only the
`created` field replaced by the second time. -/
theorem C9_synthesizer_deterministic (s : Store) (encounter_id t1 t2 : String) :
    map_encounter_to_claim s encounter_id t2 =
      (map_encounter_to_claim s encounter_id t1).map (fun c => { c with created := t2 }) := by
  unfold map_encounter_to_claim
  cases h : findEncounter s.encounters encounter_id with
  | none => rfl
  | some pe =>
    obtain ⟨pid, enc⟩ := pe
    rfl

/-- C10: after every sequence of operations starting from the empty store,
every key of the encounters dict is also a key of the patients dict, and
consequently the all-encounters summary listing — whose patient lookup is
unguarded — never hits a `KeyError`. -/
theorem C10_encounters_reference_patients (ops : List Op) :
    storeInv (runOps ops) ∧ (list_encounters (runOps ops)).isSome = true := by
  have hinv := storeInv_runOps ops
  refine ⟨hinv, ?_⟩
  unfold list_encounters
  apply summarizeBuckets_isSome
  intro b hb
  exact lookup_isSome_of_hasKey _ _ (hinv b.1 (hasKey_of_mem _ _ hb))

/-- C5: with a month key of valid shape, the monthly claims report returns
exactly the stored claims whose created timestamp's first 7 characters
equal the month key and — when a status filter is given — whose status
equals it exactly: no other claim is included and none satisfying the
conditions is omitted. -/
theorem C5_claims_in_month_exact (s : Store) (M : String) (st : Option String)
    (hM : isMonthKey M = true) (c : FHIRClaim) :
    (∃ name, (c, name) ∈ get_claims_by_month s M st) ↔
      (c ∈ claimsList s ∧ strTake c.created 7 = M ∧ ∀ t ∈ st, c.status = t) := by
  have h7 : M.data.length = 7 := length_of_isMonthKey M hM
  unfold get_claims_by_month
  constructor
  · rintro ⟨name, hmem⟩
    obtain ⟨c', hc', heq⟩ := List.mem_map.1 hmem
    injection heq with h1 h2
    subst h1
    obtain ⟨hin, hcond⟩ := List.mem_filter.1 hc'
    rw [Bool.and_eq_true] at hcond
    refine ⟨hin, (filterMonth_take7_iff _ _ h7).1 hcond.1, ?_⟩
    intro t ht
    cases st with
    | none => exact absurd ht (by simp)
    | some t0 =>
      have ht0 : t0 = t := by simpa using ht
      rw [← ht0]
      exact beq_iff_eq.1 hcond.2
  · rintro ⟨hin, hmonth, hst⟩
    refine ⟨_, List.mem_map.2 ⟨c, List.mem_filter.2 ⟨hin, ?_⟩, rfl⟩⟩
    rw [Bool.and_eq_true]
    refine ⟨(filterMonth_take7_iff _ _ h7).2 hmonth, ?_⟩
    cases st with
    | none => rfl
    | some t0 => exact beq_iff_eq.2 (hst t0 rfl)

/-- C5 (witness): the statement at the month key `2024-05` with status
filter `accepted` on a store holding the May 2024 accepted claim
`mayClaimFixture`. -/
theorem C5_claims_in_month_exact_witness :
    isMonthKey "2024-05" = true ∧
    ((∃ name, (mayClaimFixture, name) ∈
        get_claims_by_month mayStoreFixture "2024-05" (some "accepted")) ↔
      (mayClaimFixture ∈ claimsList mayStoreFixture ∧
        strTake mayClaimFixture.created 7 = "2024-05" ∧
        ∀ t ∈ (some "accepted" : Option String), mayClaimFixture.status = t)) :=
  ⟨by decide, C5_claims_in_month_exact mayStoreFixture "2024-05" (some "accepted")
    (by decide) mayClaimFixture⟩

/-- C6: the available-months report lists exactly the distinct 7-character
month prefixes of all patient creation times, encounter visit dates and
claim creation times, without duplicates, sorted descending; it is empty
precisely when the store holds no patient, no encounter and no claim. -/
theorem C6_available_months_spec (s : Store) :
    (get_available_months s).Nodup ∧
    List.Sorted (fun a b : String => b ≤ a) (get_available_months s) ∧
    (∀ m, m ∈ get_available_months s ↔
      ((∃ p ∈ s.patients, strTake p.2.created_at 7 = m) ∨
       (∃ b ∈ s.encounters, ∃ e ∈ b.2, strTake e.visit_date 7 = m) ∨
       (∃ c ∈ s.claims, strTake c.2.created 7 = m))) ∧
    (get_available_months s = [] ↔
      (s.patients = [] ∧ (∀ b ∈ s.encounters, b.2 = []) ∧ s.claims = [])) := by
  have hperm : List.Perm (get_available_months s) (allMonthKeys s).dedup :=
    List.perm_insertionSort _ _
  refine ⟨hperm.symm.nodup (List.nodup_dedup _), ?_, ?_, ?_⟩
  · haveI h1 : IsTotal String (fun a b => b ≤ a) := ⟨fun a b => le_total b a⟩
    haveI h2 : IsTrans String (fun a b => b ≤ a) :=
      ⟨fun a b c hab hbc => le_trans hbc hab⟩
    exact List.sorted_insertionSort _ _
  · intro m
    rw [hperm.mem_iff, List.mem_dedup]
    simp only [allMonthKeys]
    rw [List.mem_append, List.mem_append]
    constructor
    · rintro ((h | h) | h)
      · obtain ⟨p, hp, hm⟩ := List.mem_map.1 h
        exact Or.inl ⟨p, hp, hm⟩
      · obtain ⟨e, he, hm⟩ := List.mem_map.1 h
        obtain ⟨l, hl, hel⟩ := List.mem_flatten.1 he
        obtain ⟨b, hb, rfl⟩ := List.mem_map.1 hl
        exact Or.inr (Or.inl ⟨b, hb, e, hel, hm⟩)
      · obtain ⟨c, hc, hm⟩ := List.mem_map.1 h
        exact Or.inr (Or.inr ⟨c, hc, hm⟩)
    · rintro (⟨p, hp, hm⟩ | ⟨b, hb, e, hel, hm⟩ | ⟨c, hc, hm⟩)
      · exact Or.inl (Or.inl (List.mem_map.2 ⟨p, hp, hm⟩))
      · refine Or.inl (Or.inr (List.mem_map.2 ⟨e, ?_, hm⟩))
        exact List.mem_flatten.2 ⟨b.2, List.mem_map.2 ⟨b, hb, rfl⟩, hel⟩
      · exact Or.inr (List.mem_map.2 ⟨c, hc, hm⟩)
  · rw [← List.length_eq_zero, hperm.length_eq, List.length_eq_zero,
      List.dedup_eq_nil]
    simp only [allMonthKeys]
    rw [List.append_eq_nil, List.append_eq_nil, List.map_eq_nil_iff,
      List.map_eq_nil_iff, List.map_eq_nil_iff, List.flatten_eq_nil_iff]
    constructor
    · rintro ⟨⟨hp, he⟩, hc⟩
      exact ⟨hp, fun b hb => he b.2 (List.mem_map.2 ⟨b, hb, rfl⟩), hc⟩
    · rintro ⟨hp, he, hc⟩
      refine ⟨⟨hp, ?_⟩, hc⟩
      intro l hl
      obtain ⟨b, hb, rfl⟩ := List.mem_map.1 hl
      exact he b hb
